import Mathlib

/-!
Verification development for the codewind metrics-status checker and
performance server core: format classifiers, endpoint capability probe,
dashboard resolver, and the load-run orchestrator.

Each definition is a shallow embedding of the corresponding JavaScript
function, keeping the source's names and control flow.  JavaScript strings
are modelled as Lean `String`/`List Char`; JavaScript `null`/`undefined`
become `Option`; HTTP request outcomes become explicit inputs.
-/

namespace Codewind

/-! ## JavaScript string primitives

`jsSplitChar sep` models `String.prototype.split` with a one-character
separator: it always returns a non-empty list, and a trailing separator
produces a trailing empty element, exactly as in JavaScript. -/

def jsSplitChar (sep : Char) : List Char → List (List Char)
  | [] => [[]]
  | c :: cs =>
    if c = sep then [] :: jsSplitChar sep cs
    else
      match jsSplitChar sep cs with
      | [] => [[c]]
      | l :: ls => (c :: l) :: ls

/-- Models `String.prototype.startsWith` with a one-character argument. -/
def jsStartsWith (line : List Char) (c : Char) : Bool :=
  match line with
  | [] => false
  | x :: _ => x = c

/-- The characters JavaScript `.` cannot match without the `s` flag: the
ECMAScript line terminators LF, CR, LINE SEPARATOR and PARAGRAPH
SEPARATOR.  Lines split on LF can still contain the other three. -/
def isJsLineTerminator (c : Char) : Bool :=
  c = '\n' ∨ c = '\r' ∨ c = '\u2028' ∨ c = '\u2029'

/-- The longest stretch `.*` can span: the run of non-line-terminator
characters at the front of `cs`. -/
def jsDotRun (cs : List Char) : List Char :=
  cs.takeWhile (fun c => !isJsLineTerminator c)

/-- What lies beyond `jsDotRun cs`. -/
def jsDotRest (cs : List Char) : List Char :=
  cs.dropWhile (fun c => !isJsLineTerminator c)

/-- Part of the model of `line.replace(/{.*}/, '')`: the suffix of `l`
strictly after the last `'\x7d'` of `l` (greedy backtracking stops at the
last closing brace of the matchable run). -/
def afterLastBrace (l : List Char) : List Char :=
  (l.reverse.takeWhile (fun c => !(c = '}' : Bool))).reverse

/-- Models `line.replace(/{.*}/, '')` from `isPrometheusFormat`.  The match
starts at the first `'\x7b'` whose following run of non-line-terminator
characters contains a `'\x7d'` (`.` matches neither LF, CR, U+2028 nor
U+2029, so a closing brace beyond a line terminator is unreachable and
produces no match there), and it ends at the last `'\x7d'` of that run
(`.*` is greedy); the single replacement deletes exactly that span. -/
def stripLabelBlock : List Char → List Char
  | [] => []
  | c :: cs =>
    if c = '{' ∧ (jsDotRun cs).contains '}' then afterLastBrace (jsDotRun cs) ++ jsDotRest cs
    else c :: stripLabelBlock cs

/-! ## Format classifiers (metricsStatusChecker.js) -/

/-- Embeds `isAppmetricsFormat(html)`: `html.includes('src="graphmetrics/js')`. -/
def isAppmetricsFormat (html : String) : Bool :=
  decide (("src=\"graphmetrics/js".data) <:+: html.data)

/-- Embeds the line validity test inside `isPrometheusFormat`'s filter:
a line passes if it starts with `#`, or if after removing the brace block
the number of split pieces minus one (the count of space separators,
`validatedLine.split(" ").length - 1`) is exactly 1. -/
def prometheusLineValid (line : List Char) : Bool :=
  let lineIsComment := jsStartsWith line '#'
  let validatedLine := stripLabelBlock line
  let validMetric := ((jsSplitChar ' ' validatedLine).length - 1) == 1
  lineIsComment || validMetric

/-- The line list `isPrometheusFormat` works on: split the body on newline
and, if the final element is empty, remove it (`lines.pop()`). -/
def jsLines (s : String) : List (List Char) :=
  let lines := jsSplitChar '\n' s.data
  if lines.getLast? = some [] then lines.dropLast else lines

/-- Embeds `isPrometheusFormat(string)`: the body is accepted when every
line (after dropping a trailing empty element) survives the filter, i.e.
`lines.length === numberOfValidPrometheusLines`. -/
def isPrometheusFormat (s : String) : Bool :=
  let lines := jsLines s
  let numberOfValidPrometheusLines := (lines.filter prometheusLineValid).length
  lines.length == numberOfValidPrometheusLines

/-! ## Metric endpoint catalog and dashboard resolver (metricsStatusChecker.js) -/

/-- The `METRICS_DASH_HOST` constant object: the two hosting kinds, as the
source's string values (the spec calls them InstanceLocal and
SharedContainer). -/
structure MetricsDashHost where
  project : String
  performanceContainer : String

def METRICS_DASH_HOST : MetricsDashHost :=
  { project := "project", performanceContainer := "performanceContainer" }

/-- One entry of the `VALID_METRIC_ENDPOINT` catalog. -/
structure MetricEndpointEntry where
  endpoint : String
  hosting : String
deriving DecidableEq

/-- The `VALID_METRIC_ENDPOINT` constant object with its five entries. -/
structure ValidMetricEndpoint where
  metrics : MetricEndpointEntry
  appmetricsDash : MetricEndpointEntry
  javametricsDash : MetricEndpointEntry
  swiftmetricsDash : MetricEndpointEntry
  actuatorPrometheus : MetricEndpointEntry

def VALID_METRIC_ENDPOINT : ValidMetricEndpoint :=
  { metrics := { endpoint := "/metrics", hosting := METRICS_DASH_HOST.performanceContainer }
    appmetricsDash := { endpoint := "/appmetrics-dash", hosting := METRICS_DASH_HOST.project }
    javametricsDash := { endpoint := "/javametrics-dash", hosting := METRICS_DASH_HOST.project }
    swiftmetricsDash := { endpoint := "/swiftmetrics-dash", hosting := METRICS_DASH_HOST.project }
    actuatorPrometheus := { endpoint := "/actuator/prometheus", hosting := METRICS_DASH_HOST.performanceContainer } }

/-- Embeds `getDashboardPath(metricsDashHost, projectMetricEndpoint, projectID, language)`.
JavaScript template literals become string concatenation; `null` becomes `none`. -/
def getDashboardPath (metricsDashHost projectMetricEndpoint projectID language : String) :
    Option String :=
  if metricsDashHost = METRICS_DASH_HOST.project then
    some (projectMetricEndpoint ++ "/?theme=dark")
  else if ["java", "nodejs"].contains language ∧ metricsDashHost = METRICS_DASH_HOST.performanceContainer then
    some ("/performance/monitor/dashboard/" ++ language ++ "?theme=dark&projectID=" ++ projectID)
  else
    none

/-- The value `getMetricsDashboardHostAndPath` resolves to:
`{ hosting, path }`, each `null`-able. -/
structure DashboardTarget where
  hosting : Option String
  path : Option String
deriving DecidableEq

/-- Embeds `getMetricsDashboardHostAndPath(host, port, projectID, projectLanguage)`.
The capability map produced by `getActiveMetricsURLs(host, port)` is taken as
the input `endpoints` (endpoint path to boolean); the function then applies
`find` over the prioritised order and builds the target. -/
def getMetricsDashboardHostAndPath (endpoints : String → Bool)
    (projectID projectLanguage : String) : DashboardTarget :=
  let prioritisedReturnOrder : List MetricEndpointEntry :=
    [VALID_METRIC_ENDPOINT.metrics,
     VALID_METRIC_ENDPOINT.appmetricsDash,
     VALID_METRIC_ENDPOINT.javametricsDash,
     VALID_METRIC_ENDPOINT.swiftmetricsDash]
  let dashboardObject := prioritisedReturnOrder.find? (fun e =>
    if e.endpoint = VALID_METRIC_ENDPOINT.metrics.endpoint ∧ projectLanguage ≠ "java" then
      false
    else
      endpoints e.endpoint)
  match dashboardObject with
  | none => { hosting := none, path := none }
  | some obj =>
    { hosting := some obj.hosting
      path := getDashboardPath obj.hosting obj.endpoint projectID projectLanguage }

/-- Spec-side resolver, following the claim's words: the fixed priority list
is applied in order; the standard exposition endpoint `/metrics` is eligible
only when the language is `java`; otherwise the legacy dashboard endpoints
are tried in listed order and the first capable one wins; if no tier
matches, the non-error value with `none` hosting and `null` path results. -/
def resolveSpec (endpoints : String → Bool) (projectID projectLanguage : String) :
    DashboardTarget :=
  if projectLanguage = "java" ∧ endpoints "/metrics" then
    { hosting := some "performanceContainer"
      path := getDashboardPath "performanceContainer" "/metrics" projectID projectLanguage }
  else if endpoints "/appmetrics-dash" then
    { hosting := some "project"
      path := getDashboardPath "project" "/appmetrics-dash" projectID projectLanguage }
  else if endpoints "/javametrics-dash" then
    { hosting := some "project"
      path := getDashboardPath "project" "/javametrics-dash" projectID projectLanguage }
  else if endpoints "/swiftmetrics-dash" then
    { hosting := some "project"
      path := getDashboardPath "project" "/swiftmetrics-dash" projectID projectLanguage }
  else
    { hosting := none, path := none }

/-! ## Endpoint capability probe (metricsStatusChecker.js) -/

/-- The response of `asyncHttpRequest` as `isMetricsEndpoint` reads it. -/
structure HttpResponse where
  statusCode : Nat
  body : String

/-- Embeds `isMetricsEndpoint(host, port, path)` as a function of the
request's outcome: `none` models the request throwing (network failure or
timeout, the `catch` branch); otherwise the source checks
`statusCode === 200`, a non-empty (truthy) body, and applies both
classifiers. -/
def isMetricsEndpoint : Option HttpResponse → Bool
  | none => false
  | some r =>
    let validRes : Prop := r.statusCode = 200
    if ¬validRes ∨ r.body = "" then false
    else isAppmetricsFormat r.body || isPrometheusFormat r.body

/-! ## Load-run orchestrator (performance/server.js) -/

/-- The socket.io events `server.js` emits for a load run. -/
inductive PerfEvent where
  | starting (projectID : String)
  | started (projectID : String)
  | cancelled (projectID : String)
  | loadrunError (output : String) (error : String) (projectID : String)
  | completed (output : String) (projectID : String)
deriving DecidableEq

/-- The request body of `POST /api/v1/runload`: the fields the handler
reads.  A JavaScript-absent `url` is `none`. -/
structure ReqBody where
  projectID : String
  url : Option String
deriving DecidableEq

/-- JavaScript truthiness test `!req.body.url` for an optional string:
absent (`undefined`) and the empty string are falsy. -/
def jsFalsyStr : Option String → Bool
  | none => true
  | some s => s = ""

/-- JavaScript truthiness test `!loadProcess[projectID]` on an object
lookup: an absent property (`undefined`) and a `null` value are falsy, a
process handle is truthy. -/
def jsFalsyProc : Option (Option Nat) → Bool
  | some (some _) => false
  | _ => true

/-- JavaScript object property read `obj[k]`: the value at the first (and
only) matching key, `none` when the property is absent. -/
def objGet (l : List (String × Option Nat)) (k : String) : Option (Option Nat) :=
  (l.find? (fun p => p.1 = k)).map (fun p => p.2)

/-- JavaScript object property write `obj[k] = v`: replace the value at an
existing key, or append a fresh property. -/
def objSet (l : List (String × Option Nat)) (k : String) (v : Option Nat) :
    List (String × Option Nat) :=
  if l.any (fun p => p.1 = k) then
    l.map (fun p => if p.1 = k then (k, v) else p)
  else
    l ++ [(k, v)]

/-- The performance server's mutable state: the `loadProcess` registry
(project key to child-process handle or `null`), a counter providing fresh
process handles, the log of processes spawned, and the log of events
emitted on the socket. -/
structure PerfState where
  loadProcess : List (String × Option Nat)
  nextPid : Nat
  spawned : List Nat
  events : List PerfEvent
deriving DecidableEq

def initPerfState : PerfState :=
  { loadProcess := [], nextPid := 0, spawned := [], events := [] }

/-- Embeds `runLoad(options)`: emit `starting`, spawn the worker and store
its handle in `loadProcess[options.projectID]`, emit `started`. -/
def runLoad (st : PerfState) (options : ReqBody) : PerfState :=
  { loadProcess := objSet st.loadProcess options.projectID (some st.nextPid)
    nextPid := st.nextPid + 1
    spawned := st.spawned ++ [st.nextPid]
    events := st.events ++ [.starting options.projectID, .started options.projectID] }

/-- Embeds the `POST /api/v1/runload` handler: returns the next state and
the HTTP status sent (202 accepted, 500 when the url is missing, 409 when a
run is already in progress). -/
def runloadHandler (st : PerfState) (body : ReqBody) : PerfState × Nat :=
  if jsFalsyProc (objGet st.loadProcess body.projectID) then
    if jsFalsyStr body.url then (st, 500)
    else (runLoad st body, 202)
  else
    (st, 409)

/-- The JavaScript value of the `signal` parameter of the worker's `exit`
handler: the source compares it against both the number `9` and the string
`'SIGKILL'`, so the model keeps the value's dynamic type. -/
inductive JsSignal where
  | num (n : Int)
  | str (s : String)
  | null
deriving DecidableEq

/-- The terminal events the `exit` handler emits, given the accumulated
`output`/`errOutput`, the run's key and the worker's exit code and signal.
An exit `code` of `null` is `none`; the loose test `code != 0` holds for
`null` and every non-zero number. -/
def exitEvents (output errOutput projectID : String) (code : Option Int)
    (signal : JsSignal) : List PerfEvent :=
  if signal = JsSignal.num 9 ∨ signal = JsSignal.str "SIGKILL" then
    [.cancelled projectID]
  else if code ≠ some 0 then
    [.loadrunError output errOutput projectID]
  else
    [.completed output projectID]

/-- Embeds the worker's `exit` handler: null out the registry entry, then
emit the one terminal event. -/
def onExit (st : PerfState) (output errOutput projectID : String) (code : Option Int)
    (signal : JsSignal) : PerfState :=
  { st with
    loadProcess := objSet st.loadProcess projectID none
    events := st.events ++ exitEvents output errOutput projectID code signal }

/-- The event the worker's `error` handler (spawn-level failure) emits. -/
def errorEvents (output errOutput projectID : String) : List PerfEvent :=
  [.loadrunError output errOutput projectID]

/-- Embeds the worker's `error` handler: null out the registry entry and
emit `loadrunError` with the output captured so far. -/
def onSpawnError (st : PerfState) (output errOutput projectID : String) : PerfState :=
  { st with
    loadProcess := objSet st.loadProcess projectID none
    events := st.events ++ errorEvents output errOutput projectID }

/-- One externally triggered step of the orchestrator: a `runload` request,
a worker exit, or a worker spawn-level error. -/
inductive PerfStep where
  | req (body : ReqBody)
  | exited (output errOutput projectID : String) (code : Option Int) (signal : JsSignal)
  | spawnErr (output errOutput projectID : String)

def perfStep (st : PerfState) : PerfStep → PerfState
  | .req body => (runloadHandler st body).1
  | .exited o e p c s => onExit st o e p c s
  | .spawnErr o e p => onSpawnError st o e p

/-- The state after a sequence of orchestrator steps from the initial
(empty-registry) state. -/
def runSteps (steps : List PerfStep) : PerfState :=
  steps.foldl perfStep initPerfState

/-- The registry entries of `st` that are live (a truthy handle) for `key`. -/
def liveEntries (st : PerfState) (key : String) : List (String × Option Nat) :=
  st.loadProcess.filter (fun p => p.1 = key ∧ ¬jsFalsyProc (some p.2))

/-- The keys of the registry, in order. -/
def regKeys (l : List (String × Option Nat)) : List String := l.map Prod.fst

/-- A sample state whose registry holds a live run for `keyA`. -/
def busyState : PerfState :=
  { loadProcess := [("keyA", some 0)], nextPid := 1, spawned := [0], events := [] }

end Codewind

namespace Codewind

/-! ## Helper lemmas on the classifier primitives -/

theorem jsSplitChar_ne_nil (sep : Char) (l : List Char) : jsSplitChar sep l ≠ [] := by
  cases l with
  | nil => simp [jsSplitChar]
  | cons c cs =>
    simp only [jsSplitChar]
    by_cases hc : c = sep
    · simp [hc]
    · simp only [if_neg hc]
      cases jsSplitChar sep cs <;> simp

/-- Splitting on a one-character separator yields one more piece than the
count of that separator in the list. -/
theorem jsSplitChar_length (sep : Char) (l : List Char) :
    (jsSplitChar sep l).length = l.count sep + 1 := by
  induction l with
  | nil => simp [jsSplitChar]
  | cons c cs ih =>
    by_cases hc : c = sep
    · subst hc
      simp [jsSplitChar, ih, List.count_cons]
    · have hne := jsSplitChar_ne_nil sep cs
      cases h : jsSplitChar sep cs with
      | nil => exact absurd h hne
      | cons hd tl =>
        rw [h] at ih
        simp only [jsSplitChar, if_neg hc, h, List.length_cons] at ih ⊢
        have hbeq : (c == sep) = false := by
          simpa using hc
        simp [List.count_cons, hbeq, ih]

/-- A line with no opening brace is left unchanged by the label-block
stripping (the regex does not match). -/
theorem stripLabelBlock_eq_self (l : List Char) (h : '{' ∉ l) : stripLabelBlock l = l := by
  induction l with
  | nil => rfl
  | cons c cs ih =>
    have hc : ¬(c = '{') := fun e => h (e ▸ List.mem_cons_self c cs)
    have hcs : '{' ∉ cs := fun hm => h (List.mem_cons_of_mem _ hm)
    simp [stripLabelBlock, hc, ih hcs]

theorem takeWhile_until_brace (l m : List Char) (h : '}' ∉ l) :
    (l ++ '}' :: m).takeWhile (fun c => !(c = '}' : Bool)) = l := by
  induction l with
  | nil => simp [List.takeWhile_cons]
  | cons c cs ih =>
    have hc : ¬(c = '}') := fun e => h (e ▸ List.mem_cons_self c cs)
    have hcs : '}' ∉ cs := fun hm => h (List.mem_cons_of_mem _ hm)
    simp only [List.cons_append, List.takeWhile_cons]
    simp [hc, ih hcs]

/-- The suffix after the last closing brace, computed on a list whose shown
closing brace is the last one. -/
theorem afterLastBrace_append (m b : List Char) (hb : '}' ∉ b) :
    afterLastBrace (m ++ '}' :: b) = b := by
  unfold afterLastBrace
  have hrev : (m ++ '}' :: b).reverse = b.reverse ++ '}' :: m.reverse := by
    simp
  have hbrev : '}' ∉ b.reverse := by simpa using hb
  rw [hrev, takeWhile_until_brace _ _ hbrev, List.reverse_reverse]

theorem takeWhile_append_of_all (p : Char → Bool) (l r : List Char)
    (h : ∀ x ∈ l, p x = true) : (l ++ r).takeWhile p = l ++ r.takeWhile p := by
  induction l with
  | nil => simp
  | cons c cs ih =>
    have hc := h c (List.mem_cons_self c cs)
    simp [List.takeWhile_cons, hc, ih (fun x hx => h x (List.mem_cons_of_mem c hx))]

theorem dropWhile_append_of_all (p : Char → Bool) (l r : List Char)
    (h : ∀ x ∈ l, p x = true) : (l ++ r).dropWhile p = r.dropWhile p := by
  induction l with
  | nil => simp
  | cons c cs ih =>
    have hc := h c (List.mem_cons_self c cs)
    simp [List.dropWhile_cons, hc, ih (fun x hx => h x (List.mem_cons_of_mem c hx))]

/-- The greedy replace within the dot-matchable run: on a line of the shape
`a ++ "\x7b" ++ m ++ "\x7d" ++ b` with no opening brace in `a`, no line
terminator inside `m` (so the shown closing brace is reachable) and no
closing brace in `b`, the stripping removes everything from the shown
opening brace to the shown closing brace, whatever brace groups `m`
contains and whatever terminators `b` contains. -/
theorem stripLabelBlock_greedy (a m b : List Char) (ha : '{' ∉ a) (hb : '}' ∉ b)
    (hm : ∀ c ∈ m, isJsLineTerminator c = false) :
    stripLabelBlock (a ++ '{' :: (m ++ '}' :: b)) = a ++ b := by
  induction a with
  | nil =>
    have hd : ∀ c ∈ m, (!isJsLineTerminator c) = true := by
      intro c hc
      rw [hm c hc]
      rfl
    have hbrace : isJsLineTerminator '}' = false := by decide
    have hrun : jsDotRun (m ++ '}' :: b) =
        m ++ '}' :: b.takeWhile (fun c => !isJsLineTerminator c) := by
      unfold jsDotRun
      rw [takeWhile_append_of_all _ m ('}' :: b) hd]
      simp [List.takeWhile_cons, hbrace]
    have hrest : jsDotRest (m ++ '}' :: b) =
        b.dropWhile (fun c => !isJsLineTerminator c) := by
      unfold jsDotRest
      rw [dropWhile_append_of_all _ m ('}' :: b) hd]
      simp [List.dropWhile_cons, hbrace]
    have hbt : '}' ∉ b.takeWhile (fun c => !isJsLineTerminator c) :=
      fun hmem => hb ((List.takeWhile_sublist _).mem hmem)
    have hcontains : (jsDotRun (m ++ '}' :: b)).contains '}' = true := by
      rw [hrun]
      exact List.elem_iff.mpr (by simp)
    simp only [List.nil_append, stripLabelBlock]
    rw [if_pos ⟨trivial, hcontains⟩, hrun, hrest, afterLastBrace_append m _ hbt,
      List.takeWhile_append_dropWhile]
  | cons c cs ih =>
    have hc : ¬(c = '{') := fun e => ha (e ▸ List.mem_cons_self c cs)
    have hcs : '{' ∉ cs := fun hm2 => ha (List.mem_cons_of_mem _ hm2)
    simp only [List.cons_append, stripLabelBlock]
    rw [if_neg (fun hand => hc hand.1)]
    simp only [List.append_eq]
    rw [ih hcs]

/-- The body is accepted exactly when every line (after dropping a trailing
empty element) passes the per-line filter. -/
theorem isPrometheusFormat_iff (s : String) :
    isPrometheusFormat s = true ↔ ∀ l ∈ jsLines s, prometheusLineValid l = true := by
  unfold isPrometheusFormat
  simp only [beq_iff_eq]
  constructor
  · intro h l hl
    have hfilter : (jsLines s).filter prometheusLineValid = jsLines s :=
      ((jsLines s).filter_sublist).eq_of_length h.symm
    have := List.filter_eq_self.mp hfilter
    exact this l hl
  · intro h
    rw [List.filter_eq_self.mpr h]

/-- The per-line filter, restated: a line passes when it is a comment or
the stripped line has exactly one space character. -/
theorem prometheusLineValid_iff (l : List Char) :
    prometheusLineValid l = true ↔
      (jsStartsWith l '#' = true ∨ (stripLabelBlock l).count ' ' = 1) := by
  unfold prometheusLineValid
  rw [Bool.or_eq_true]
  constructor
  · rintro (h | h)
    · exact Or.inl h
    · refine Or.inr ?_
      rw [jsSplitChar_length, Nat.add_sub_cancel, beq_iff_eq] at h
      exact h
  · rintro (h | h)
    · exact Or.inl h
    · refine Or.inr ?_
      rw [jsSplitChar_length, Nat.add_sub_cancel, beq_iff_eq]
      exact h

/-! ## Helper lemmas on the orchestrator registry -/

theorem objGet_append_fresh (l : List (String × Option Nat)) (k : String) (v : Option Nat)
    (h : l.any (fun p => p.1 = k) = false) : objGet (l ++ [(k, v)]) k = some v := by
  induction l with
  | nil => simp [objGet, List.find?]
  | cons p l ih =>
    have hp : ¬(p.1 = k) := by
      have := List.any_eq_false.mp h p (List.mem_cons_self p l)
      simpa using this
    have hl : l.any (fun q => q.1 = k) = false := by
      rw [List.any_eq_false] at h ⊢
      exact fun q hq => h q (List.mem_cons_of_mem p hq)
    simp only [List.cons_append, objGet, List.find?]
    rw [decide_eq_false hp]
    exact ih hl

theorem objGet_map_replace (l : List (String × Option Nat)) (k : String) (v : Option Nat)
    (h : l.any (fun p => p.1 = k) = true) :
    objGet (l.map (fun p => if p.1 = k then (k, v) else p)) k = some v := by
  induction l with
  | nil => simp at h
  | cons p l ih =>
    by_cases hp : p.1 = k
    · simp only [List.map_cons, if_pos hp, objGet, List.find?]
      simp
    · have hl : l.any (fun q => q.1 = k) = true := by
        rcases List.any_eq_true.mp h with ⟨q, hq, hqk⟩
        rcases List.mem_cons.mp hq with rfl | hq'
        · exact absurd (of_decide_eq_true hqk) hp
        · exact List.any_eq_true.mpr ⟨q, hq', hqk⟩
      simp only [List.map_cons, if_neg hp, objGet, List.find?]
      rw [decide_eq_false hp]
      exact ih hl

/-- Writing a key and reading it back yields the written value. -/
theorem objGet_objSet_self (l : List (String × Option Nat)) (k : String) (v : Option Nat) :
    objGet (objSet l k v) k = some v := by
  unfold objSet
  by_cases h : l.any (fun p => p.1 = k) = true
  · rw [if_pos h]
    exact objGet_map_replace l k v h
  · rw [if_neg h]
    exact objGet_append_fresh l k v (Bool.eq_false_iff.mpr h)

/-- A JavaScript-object write never duplicates a key. -/
theorem regKeys_objSet_nodup (l : List (String × Option Nat)) (k : String) (v : Option Nat)
    (h : (regKeys l).Nodup) : (regKeys (objSet l k v)).Nodup := by
  unfold objSet
  by_cases hany : l.any (fun p => p.1 = k) = true
  · rw [if_pos hany]
    have hmap : regKeys (l.map (fun p => if p.1 = k then (k, v) else p)) = regKeys l := by
      unfold regKeys
      rw [List.map_map]
      refine List.map_congr_left ?_
      intro p _
      by_cases hp : p.1 = k
      · simp [hp]
      · simp [hp]
    rw [hmap]
    exact h
  · rw [if_neg hany]
    have hk : k ∉ regKeys l := by
      intro hmem
      rcases List.mem_map.mp hmem with ⟨p, hp, hpk⟩
      exact hany (List.any_eq_true.mpr ⟨p, hp, decide_eq_true hpk⟩)
    unfold regKeys at h hk ⊢
    rw [List.map_append, List.nodup_append]
    refine ⟨h, by simp, ?_⟩
    intro a ha hmem
    simp only [List.map_cons, List.map_nil, List.mem_singleton] at hmem
    exact hk (hmem ▸ ha)

/-- With no duplicate keys, at most one registry entry can match a key,
live or not. -/
theorem length_filter_key_le_one (l : List (String × Option Nat)) (k : String)
    (Q : String × Option Nat → Prop) [DecidablePred Q] (h : (regKeys l).Nodup) :
    (l.filter (fun p => p.1 = k ∧ Q p)).length ≤ 1 := by
  induction l with
  | nil => simp
  | cons p l ih =>
    have hl : (regKeys l).Nodup := (List.nodup_cons.mp h).2
    have hpl : p.1 ∉ regKeys l := (List.nodup_cons.mp h).1
    by_cases hp : p.1 = k ∧ Q p
    · have hempty : l.filter (fun r => r.1 = k ∧ Q r) = [] := by
        rw [List.filter_eq_nil_iff]
        intro r hr
        intro hcontra
        have : r.1 = k := (of_decide_eq_true hcontra).1
        exact hpl (hp.1 ▸ this ▸ List.mem_map.mpr ⟨r, hr, rfl⟩)
      rw [List.filter_cons_of_pos (by exact decide_eq_true hp), hempty]
      simp
    · rw [List.filter_cons_of_neg (by simpa using hp)]
      exact ih hl

/-- Every orchestrator step preserves key uniqueness of the registry. -/
theorem perfStep_nodup (st : PerfState) (s : PerfStep)
    (h : (regKeys st.loadProcess).Nodup) : (regKeys (perfStep st s).loadProcess).Nodup := by
  cases s with
  | req body =>
    simp only [perfStep, runloadHandler]
    by_cases h1 : jsFalsyProc (objGet st.loadProcess body.projectID) = true
    · rw [if_pos h1]
      by_cases h2 : jsFalsyStr body.url = true
      · rw [if_pos h2]
        exact h
      · rw [if_neg h2]
        exact regKeys_objSet_nodup _ _ _ h
    · rw [if_neg h1]
      exact h
  | exited o e p c sg => exact regKeys_objSet_nodup _ _ _ h
  | spawnErr o e p => exact regKeys_objSet_nodup _ _ _ h

theorem runSteps_nodup (steps : List PerfStep) :
    (regKeys (runSteps steps).loadProcess).Nodup := by
  unfold runSteps
  have general : ∀ (st : PerfState), (regKeys st.loadProcess).Nodup →
      (regKeys (steps.foldl perfStep st).loadProcess).Nodup := by
    induction steps with
    | nil => exact fun st h => h
    | cons s rest ih =>
      intro st h
      exact ih (perfStep st s) (perfStep_nodup st s h)
  exact general initPerfState (by simp [initPerfState, regKeys])

/-! ## Helper lemmas on the resolver -/

/-- The resolver agrees with the spec-side priority cascade on every
capability map and language. -/
theorem resolve_eq_resolveSpec (endpoints : String → Bool)
    (projectID projectLanguage : String) :
    getMetricsDashboardHostAndPath endpoints projectID projectLanguage =
      resolveSpec endpoints projectID projectLanguage := by
  unfold getMetricsDashboardHostAndPath resolveSpec
  by_cases hj : projectLanguage = "java"
  · subst hj
    cases h1 : endpoints "/metrics" <;> cases h2 : endpoints "/appmetrics-dash" <;>
      cases h3 : endpoints "/javametrics-dash" <;> cases h4 : endpoints "/swiftmetrics-dash" <;>
      simp [VALID_METRIC_ENDPOINT, METRICS_DASH_HOST, List.find?, h1, h2, h3, h4]
  · cases h2 : endpoints "/appmetrics-dash" <;> cases h3 : endpoints "/javametrics-dash" <;>
      cases h4 : endpoints "/swiftmetrics-dash" <;>
      simp [VALID_METRIC_ENDPOINT, METRICS_DASH_HOST, List.find?, hj, h2, h3, h4]

/-! ## Claim theorems -/

/-- C3: for every input string, `isPrometheusFormat` returns true iff,
after splitting the body on newline and dropping a final empty element,
every remaining line is valid, where a line is valid iff it starts with
`#` or, after stripping the brace-delimited label block, the remaining
content has exactly one separating space; the empty body is vacuously
valid, the body with a metric line and a labelled metric line is valid,
a line with two separating spaces is invalid, and a line whose label block
is split by a CR (which the regex dot cannot cross) is invalid. -/
theorem claim_C3_exposition_classifier :
    (∀ s : String, isPrometheusFormat s = true ↔
      ∀ line ∈ jsLines s,
        (jsStartsWith line '#' = true ∨ (stripLabelBlock line).count ' ' = 1)) ∧
    isPrometheusFormat "" = true ∧
    isPrometheusFormat "foo_total 12\nbar\x7blabel=\"x\"\x7d 3\n" = true ∧
    isPrometheusFormat "foo bar baz\n" = false ∧
    isPrometheusFormat "m\x7ba\x7d 2\rz\x7d 3" = false := by
  refine ⟨?_, by decide, by decide, by decide, by decide⟩
  intro s
  exact (isPrometheusFormat_iff s).trans
    (forall_congr' fun line => imp_congr_right fun _ => prometheusLineValid_iff line)

/-- C3 witness: a body of one comment line and one metric line satisfies
the per-line condition and is accepted. -/
theorem claim_C3_exposition_classifier_witness : isPrometheusFormat "# c\nm 1" = true :=
  (claim_C3_exposition_classifier.1 "# c\nm 1").mpr (by decide)

/-- C9 counterexample: the body consisting of the single line made of one
space character is whitespace-only, yet the classifier accepts it (the
stripped line has exactly one space), so a whitespace-only line is not
always invalid. -/
theorem counterexample_C9_single_space :
    (" ".data.all Char.isWhitespace = true) ∧ isPrometheusFormat " " = true := by
  decide

/-- C9 amended: a line consisting only of whitespace characters whose count
of space characters is not exactly one is judged invalid, so any body whose
line list (after dropping a trailing empty element) contains such a line is
classified invalid overall; the whitespace-only line with exactly one space
is the lone exception and is judged valid. -/
theorem claim_C9_whitespace_line (body : String) (line : List Char)
    (hmem : line ∈ jsLines body) (hws : line.all Char.isWhitespace = true)
    (hcount : line.count ' ' ≠ 1) : isPrometheusFormat body = false := by
  have hvalid : prometheusLineValid line = false := by
    rw [Bool.eq_false_iff]
    intro h
    rcases (prometheusLineValid_iff line).mp h with hc | hsp
    · cases line with
      | nil => simp [jsStartsWith] at hc
      | cons c cs =>
        have hcws : c.isWhitespace = true :=
          List.all_eq_true.mp hws c (List.mem_cons_self c cs)
        have hc' : c = '#' := by simpa [jsStartsWith] using hc
        rw [hc'] at hcws
        exact absurd hcws (by decide)
    · have hnb : '{' ∉ line := by
        intro hm
        exact absurd (List.all_eq_true.mp hws '{' hm) (by decide)
      rw [stripLabelBlock_eq_self line hnb] at hsp
      exact hcount hsp
  rw [Bool.eq_false_iff]
  intro htrue
  have := (isPrometheusFormat_iff body).mp htrue line hmem
  rw [hvalid] at this
  exact Bool.false_ne_true this

/-- C9 witness: the body whose second line is two spaces is rejected. -/
theorem claim_C9_whitespace_line_witness : isPrometheusFormat "a 1\n  \n" = false :=
  claim_C9_whitespace_line "a 1\n  \n" "  ".data (by decide) (by decide) (by decide)

/-- C7 counterexample: on the line `a\x7bx\x7d \x7by\x7d b` the stripping does not
keep the text between the first closing brace and the later opening brace:
the claimed first-opening-to-first-closing (non-greedy) removal would leave
`a \x7by\x7d b`, but the code's greedy removal leaves `a b`. -/
theorem counterexample_C7_two_groups :
    stripLabelBlock ("a{x} {y} b".data) ≠ ("a {y} b").data ∧
    stripLabelBlock ("a{x} {y} b".data) = ("a b").data := by
  decide

/-- C7 amended: the label-block stripping removes exactly the span from the
first opening brace whose following run of non-line-terminator characters
contains a closing brace, to the last closing brace of that run — a greedy
match bounded by JavaScript `.`, which matches no line terminator: on such
a run with more than one brace group, all groups and the text between them
are removed by the single replacement, while a closing brace beyond a line
terminator is unreachable (second conjunct: the CR-split line keeps its
tail; third conjunct: a line whose only closing brace sits past a CR has no
match at all). -/
theorem claim_C7_greedy_strip :
    (∀ a m b : List Char, '{' ∉ a → '}' ∉ b →
      (∀ c ∈ m, isJsLineTerminator c = false) →
      stripLabelBlock (a ++ '{' :: (m ++ '}' :: b)) = a ++ b) ∧
    stripLabelBlock ("m\x7ba\x7d 2\rz\x7d 3".data) = ("m 2\rz\x7d 3").data ∧
    stripLabelBlock ("a\x7bx\r\x7d".data) = ("a\x7bx\r\x7d").data :=
  ⟨fun a m b ha hb hm => stripLabelBlock_greedy a m b ha hb hm, by decide, by decide⟩

/-- C7 witness: the greedy characterisation evaluated on the
two-brace-group line from the counterexample. -/
theorem claim_C7_greedy_strip_witness :
    stripLabelBlock ("a".data ++ '{' :: ("x\x7d \x7by".data ++ '}' :: " b".data)) =
      "a".data ++ " b".data :=
  claim_C7_greedy_strip.1 "a".data "x\x7d \x7by".data " b".data (by decide) (by decide)
    (by decide)

/-- C1: for every capability map and language the resolver equals the
spec-side priority cascade (the standard exposition endpoint `/metrics`
only when the language is java, then the legacy dashboards in listed
order, else the non-error empty target); moreover for a non-java language
the `/metrics` capability is ignored entirely, and when no tier matches the
result is the target with `none` hosting and `null` path. -/
theorem claim_C1_resolver_priority (endpoints : String → Bool)
    (projectID projectLanguage : String) :
    getMetricsDashboardHostAndPath endpoints projectID projectLanguage =
      resolveSpec endpoints projectID projectLanguage ∧
    (projectLanguage ≠ "java" →
      getMetricsDashboardHostAndPath endpoints projectID projectLanguage =
        getMetricsDashboardHostAndPath
          (fun e => if e = "/metrics" then false else endpoints e)
          projectID projectLanguage) ∧
    ((endpoints "/appmetrics-dash" = false ∧ endpoints "/javametrics-dash" = false ∧
      endpoints "/swiftmetrics-dash" = false ∧
      (projectLanguage = "java" → endpoints "/metrics" = false)) →
      getMetricsDashboardHostAndPath endpoints projectID projectLanguage =
        { hosting := none, path := none }) := by
  refine ⟨resolve_eq_resolveSpec endpoints projectID projectLanguage, ?_, ?_⟩
  · intro hj
    rw [resolve_eq_resolveSpec, resolve_eq_resolveSpec]
    unfold resolveSpec
    simp [hj]
  · rintro ⟨h2, h3, h4, h1⟩
    rw [resolve_eq_resolveSpec]
    unfold resolveSpec
    by_cases hj : projectLanguage = "java"
    · simp [hj, h1 hj, h2, h3, h4]
    · simp [hj, h2, h3, h4]

/-- C1 witness: with every endpoint capable, java resolves to the standard
exposition tier while nodejs ignores it and falls back to the first legacy
tier; with no endpoint capable the result is the empty target. -/
theorem claim_C1_resolver_priority_witness :
    getMetricsDashboardHostAndPath (fun _ => true) "p1" "nodejs" =
      getMetricsDashboardHostAndPath
        (fun e => if e = "/metrics" then false else true) "p1" "nodejs" ∧
    getMetricsDashboardHostAndPath (fun _ => false) "p1" "swift" =
      { hosting := none, path := none } :=
  ⟨(claim_C1_resolver_priority (fun _ => true) "p1" "nodejs").2.1 (by decide),
   (claim_C1_resolver_priority (fun _ => false) "p1" "swift").2.2
     ⟨rfl, rfl, rfl, fun h => by simp at h⟩⟩

/-- C8 counterexample: for SharedContainer hosting with language java the
code builds `/performance/monitor/dashboard/java?theme=dark&projectID=abc`,
not the claimed `/monitor/dashboard/java?theme=dark&runID=abc`. -/
theorem counterexample_C8_shared_path :
    getDashboardPath "performanceContainer" "/metrics" "abc" "java" ≠
      some "/monitor/dashboard/java?theme=dark&runID=abc" ∧
    getDashboardPath "performanceContainer" "/metrics" "abc" "java" =
      some "/performance/monitor/dashboard/java?theme=dark&projectID=abc" := by
  decide

/-- C8 amended: path construction yields `<endpoint>/?theme=dark` for
InstanceLocal (`project`) hosting; for SharedContainer
(`performanceContainer`) hosting it yields
`/performance/monitor/dashboard/<language>?theme=dark&projectID=<id>` when
the language is java or nodejs, and `null` for any other language even if
the capability matched. -/
theorem claim_C8_dashboard_path (host e pid lang : String) :
    (host = "project" → getDashboardPath host e pid lang = some (e ++ "/?theme=dark")) ∧
    (host = "performanceContainer" → (lang = "java" ∨ lang = "nodejs") →
      getDashboardPath host e pid lang =
        some ("/performance/monitor/dashboard/" ++ lang ++ "?theme=dark&projectID=" ++ pid)) ∧
    (host = "performanceContainer" → ¬lang = "java" → ¬lang = "nodejs" →
      getDashboardPath host e pid lang = none) := by
  refine ⟨?_, ?_, ?_⟩
  · rintro rfl
    unfold getDashboardPath
    rw [if_pos (show "project" = METRICS_DASH_HOST.project from rfl)]
  · rintro rfl hl
    unfold getDashboardPath
    rw [if_neg (by decide)]
    rcases hl with rfl | rfl
    · rw [if_pos ⟨by decide, rfl⟩]
    · rw [if_pos ⟨by decide, rfl⟩]
  · rintro rfl hj hn
    unfold getDashboardPath
    rw [if_neg (by decide), if_neg ?_]
    rintro ⟨hc, -⟩
    have : lang ∈ ["java", "nodejs"] := List.elem_iff.mp hc
    simp only [List.mem_cons, List.mem_singleton, List.not_mem_nil, or_false] at this
    rcases this with h | h
    · exact hj h
    · exact hn h

/-- C8 witness: the three branches evaluated at concrete hosting kinds and
languages. -/
theorem claim_C8_dashboard_path_witness :
    getDashboardPath "project" "/appmetrics-dash" "p" "swift" =
      some "/appmetrics-dash/?theme=dark" ∧
    getDashboardPath "performanceContainer" "/metrics" "p" "nodejs" =
      some "/performance/monitor/dashboard/nodejs?theme=dark&projectID=p" ∧
    getDashboardPath "performanceContainer" "/metrics" "p" "swift" = none := by
  refine ⟨?_, ?_, ?_⟩
  · have h := (claim_C8_dashboard_path "project" "/appmetrics-dash" "p" "swift").1 rfl
    simpa using h
  · have h := (claim_C8_dashboard_path "performanceContainer" "/metrics" "p" "nodejs").2.1
      rfl (Or.inr rfl)
    simpa using h
  · exact (claim_C8_dashboard_path "performanceContainer" "/metrics" "p" "swift").2.2
      rfl (by decide) (by decide)

/-- C10: the resolver's result has a `null` path iff it has a `null`
hosting: the only SharedContainer entry reachable through the priority list
is the java-gated `/metrics` tier, whose path construction always succeeds
for java, so a matched capability with a hosting but no path is
unreachable. -/
theorem claim_C10_path_none_iff_hosting_none (endpoints : String → Bool)
    (projectID projectLanguage : String) :
    (getMetricsDashboardHostAndPath endpoints projectID projectLanguage).path = none ↔
      (getMetricsDashboardHostAndPath endpoints projectID projectLanguage).hosting = none := by
  rw [resolve_eq_resolveSpec]
  unfold resolveSpec
  by_cases h1 : projectLanguage = "java" ∧ endpoints "/metrics" = true
  · rw [if_pos h1]
    obtain ⟨hl, -⟩ := h1
    subst hl
    have hpath : getDashboardPath "performanceContainer" "/metrics" projectID "java" =
        some ("/performance/monitor/dashboard/" ++ "java" ++ "?theme=dark&projectID=" ++ projectID) := by
      unfold getDashboardPath
      rw [if_neg (by decide), if_pos ⟨by decide, rfl⟩]
    simp [hpath]
  · rw [if_neg h1]
    have hproj : ∀ e : String, getDashboardPath "project" e projectID projectLanguage =
        some (e ++ "/?theme=dark") := by
      intro e
      unfold getDashboardPath
      rw [if_pos (show "project" = METRICS_DASH_HOST.project from rfl)]
    by_cases h2 : endpoints "/appmetrics-dash" = true
    · rw [if_pos h2]
      simp [hproj]
    · rw [if_neg h2]
      by_cases h3 : endpoints "/javametrics-dash" = true
      · rw [if_pos h3]
        simp [hproj]
      · rw [if_neg h3]
        by_cases h4 : endpoints "/swiftmetrics-dash" = true
        · rw [if_pos h4]
          simp [hproj]
        · rw [if_neg h4]

/-- C10 witness: the equivalence instantiated on an all-false capability
map, where both the hosting and the path are `none`. -/
theorem claim_C10_path_none_iff_hosting_none_witness :
    (getMetricsDashboardHostAndPath (fun _ => false) "p1" "go").path = none :=
  (claim_C10_path_none_iff_hosting_none (fun _ => false) "p1" "go").mpr rfl

/-- C2: on worker exit exactly one terminal event is emitted, classified in
priority order: the forceful termination signal yields `cancelled` with the
key; otherwise a non-zero (or null) exit code yields `loadrunError` with
key, accumulated stdout and stderr; otherwise (zero exit code) `completed`
with key and stdout; a spawn-level error emits `loadrunError` with the
captured output; the `exit` handler appends exactly its one event to the
event log. -/
theorem claim_C2_terminal_classification (output errOutput projectID : String)
    (code : Option Int) (signal : JsSignal) :
    ((signal = JsSignal.num 9 ∨ signal = JsSignal.str "SIGKILL") →
      exitEvents output errOutput projectID code signal = [.cancelled projectID]) ∧
    (¬(signal = JsSignal.num 9 ∨ signal = JsSignal.str "SIGKILL") → code ≠ some 0 →
      exitEvents output errOutput projectID code signal =
        [.loadrunError output errOutput projectID]) ∧
    (¬(signal = JsSignal.num 9 ∨ signal = JsSignal.str "SIGKILL") → code = some 0 →
      exitEvents output errOutput projectID code signal = [.completed output projectID]) ∧
    errorEvents output errOutput projectID = [.loadrunError output errOutput projectID] ∧
    (exitEvents output errOutput projectID code signal).length = 1 ∧
    (∀ st : PerfState, (onExit st output errOutput projectID code signal).events =
      st.events ++ exitEvents output errOutput projectID code signal) := by
  refine ⟨?_, ?_, ?_, rfl, ?_, fun st => rfl⟩
  · intro hs
    unfold exitEvents
    rw [if_pos hs]
  · intro hs hc
    unfold exitEvents
    rw [if_neg hs, if_pos hc]
  · intro hs hc
    unfold exitEvents
    rw [if_neg hs, if_neg (by simpa using hc)]
  · unfold exitEvents
    by_cases hs : signal = JsSignal.num 9 ∨ signal = JsSignal.str "SIGKILL"
    · rw [if_pos hs]
      rfl
    · rw [if_neg hs]
      by_cases hc : code ≠ some 0
      · rw [if_pos hc]
        rfl
      · rw [if_neg hc]
        rfl

/-- C2 witness: the three terminal classifications evaluated at concrete
exit data. -/
theorem claim_C2_terminal_classification_witness :
    exitEvents "o" "e" "p" none (JsSignal.str "SIGKILL") = [.cancelled "p"] ∧
    exitEvents "o" "e" "p" (some 3) JsSignal.null = [.loadrunError "o" "e" "p"] ∧
    exitEvents "o" "e" "p" (some 0) JsSignal.null = [.completed "o" "p"] :=
  ⟨(claim_C2_terminal_classification "o" "e" "p" none (JsSignal.str "SIGKILL")).1
      (Or.inr rfl),
   (claim_C2_terminal_classification "o" "e" "p" (some 3) JsSignal.null).2.1
      (by simp) (by simp),
   (claim_C2_terminal_classification "o" "e" "p" (some 0) JsSignal.null).2.2.1
      (by simp) rfl⟩

/-- C4: a start call for a key with a live registry entry returns the 409
conflict status and leaves the state (registry, spawn log, event log)
untouched; over any sequence of start and worker-exit steps the registry
never holds two live entries for one key; and two consecutive start calls
for the same key spawn exactly one worker, the second receiving the
conflict status while the registry stays as the first call left it. -/
theorem claim_C4_single_run_per_key :
    (∀ (st : PerfState) (body : ReqBody) (pid : Nat),
      objGet st.loadProcess body.projectID = some (some pid) →
      runloadHandler st body = (st, 409)) ∧
    (∀ (steps : List PerfStep) (key : String),
      (liveEntries (runSteps steps) key).length ≤ 1) ∧
    (∀ (st : PerfState) (key : String) (u1 u2 : Option String),
      jsFalsyProc (objGet st.loadProcess key) = true →
      jsFalsyStr u1 = false → jsFalsyStr u2 = false →
      (runloadHandler st { projectID := key, url := u1 }).2 = 202 ∧
      (runloadHandler (runloadHandler st { projectID := key, url := u1 }).1
        { projectID := key, url := u2 }).2 = 409 ∧
      (runloadHandler (runloadHandler st { projectID := key, url := u1 }).1
        { projectID := key, url := u2 }).1.spawned.length = st.spawned.length + 1 ∧
      (runloadHandler (runloadHandler st { projectID := key, url := u1 }).1
        { projectID := key, url := u2 }).1 =
        (runloadHandler st { projectID := key, url := u1 }).1) := by
  refine ⟨?_, ?_, ?_⟩
  · intro st body pid h
    unfold runloadHandler
    rw [h]
    rw [if_neg (by simp [jsFalsyProc])]
  · intro steps key
    unfold liveEntries
    exact length_filter_key_le_one _ key _ (runSteps_nodup steps)
  · intro st key u1 u2 hlive hu1 hu2
    have hfirst : runloadHandler st { projectID := key, url := u1 } =
        (runLoad st { projectID := key, url := u1 }, 202) := by
      unfold runloadHandler
      rw [if_pos hlive, if_neg (by simp [hu1])]
    have hlive2 : objGet (runLoad st { projectID := key, url := u1 }).loadProcess key =
        some (some st.nextPid) := by
      unfold runLoad
      exact objGet_objSet_self st.loadProcess key (some st.nextPid)
    have hsecond : runloadHandler (runLoad st { projectID := key, url := u1 })
        { projectID := key, url := u2 } = (runLoad st { projectID := key, url := u1 }, 409) := by
      unfold runloadHandler
      rw [hlive2]
      rw [if_neg (by simp [jsFalsyProc])]
    rw [hfirst]
    refine ⟨rfl, ?_, ?_, ?_⟩
    · rw [hsecond]
    · rw [hsecond]
      unfold runLoad
      simp
    · rw [hsecond]

/-- C4 witness: a second start for `keyA` right after a first start from the
empty state is rejected with 409, spawns nothing further, and a start
against a state already holding a live `keyA` run returns 409 unchanged. -/
theorem claim_C4_single_run_per_key_witness :
    runloadHandler busyState { projectID := "keyA", url := some "http://y" } =
      (busyState, 409) ∧
    (runloadHandler
      (runloadHandler initPerfState { projectID := "keyA", url := some "http://x" }).1
      { projectID := "keyA", url := some "http://y" }).2 = 409 ∧
    (runloadHandler
      (runloadHandler initPerfState { projectID := "keyA", url := some "http://x" }).1
      { projectID := "keyA", url := some "http://y" }).1.spawned.length = 1 :=
  ⟨claim_C4_single_run_per_key.1 busyState
      { projectID := "keyA", url := some "http://y" } 0 rfl,
   (claim_C4_single_run_per_key.2.2 initPerfState "keyA" (some "http://x") (some "http://y")
      rfl rfl rfl).2.1,
   (claim_C4_single_run_per_key.2.2 initPerfState "keyA" (some "http://x") (some "http://y")
      rfl rfl rfl).2.2.1⟩

/-- C5: the code's behaviour at the failing input: a start call whose key
has no live entry and whose options lack a url returns HTTP 500 (a server
error, where the handler's own documentation and the spec promise a
client-error rejection) and performs no state change: no worker is spawned,
no entry registered, no event emitted. -/
theorem claim_C5_missing_url_five_hundred :
    runloadHandler initPerfState { projectID := "p1", url := none } = (initPerfState, 500) ∧
    (∀ (st : PerfState) (body : ReqBody),
      jsFalsyProc (objGet st.loadProcess body.projectID) = true →
      jsFalsyStr body.url = true →
      runloadHandler st body = (st, 500)) := by
  refine ⟨rfl, ?_⟩
  intro st body h1 h2
  unfold runloadHandler
  rw [if_pos h1, if_pos h2]

/-- C6: the endpoint probe is fail-closed: a request error (including
timeout) yields capability false, as does a non-200 status or an empty
body; otherwise the capability is the disjunction of the two format
classifiers. -/
theorem claim_C6_probe_fail_closed :
    isMetricsEndpoint none = false ∧
    (∀ r : HttpResponse, r.statusCode ≠ 200 → isMetricsEndpoint (some r) = false) ∧
    (∀ r : HttpResponse, r.body = "" → isMetricsEndpoint (some r) = false) ∧
    (∀ r : HttpResponse, r.statusCode = 200 → r.body ≠ "" →
      isMetricsEndpoint (some r) =
        (isAppmetricsFormat r.body || isPrometheusFormat r.body)) := by
  refine ⟨rfl, ?_, ?_, ?_⟩
  · intro r h
    show (let validRes : Prop := r.statusCode = 200
      if ¬validRes ∨ r.body = "" then false
      else isAppmetricsFormat r.body || isPrometheusFormat r.body) = false
    rw [if_pos (Or.inl h)]
  · intro r h
    show (let validRes : Prop := r.statusCode = 200
      if ¬validRes ∨ r.body = "" then false
      else isAppmetricsFormat r.body || isPrometheusFormat r.body) = false
    rw [if_pos (Or.inr h)]
  · intro r h1 h2
    show (let validRes : Prop := r.statusCode = 200
      if ¬validRes ∨ r.body = "" then false
      else isAppmetricsFormat r.body || isPrometheusFormat r.body) =
      (isAppmetricsFormat r.body || isPrometheusFormat r.body)
    rw [if_neg ?_]
    rintro (hc | hb)
    · exact hc h1
    · exact h2 hb

/-- C6 witness: the probe evaluated on a failed status, an empty body and a
healthy exposition response. -/
theorem claim_C6_probe_fail_closed_witness :
    isMetricsEndpoint (some { statusCode := 404, body := "ab 1" }) = false ∧
    isMetricsEndpoint (some { statusCode := 200, body := "" }) = false ∧
    isMetricsEndpoint (some { statusCode := 200, body := "ab 1" }) =
      (isAppmetricsFormat "ab 1" || isPrometheusFormat "ab 1") :=
  ⟨claim_C6_probe_fail_closed.2.1 { statusCode := 404, body := "ab 1" } (by decide),
   claim_C6_probe_fail_closed.2.2.1 { statusCode := 200, body := "" } rfl,
   claim_C6_probe_fail_closed.2.2.2 { statusCode := 200, body := "ab 1" } rfl (by decide)⟩

example : isPrometheusFormat "foo_total 12\nbar\x7blabel=\"x\"\x7d 3\n" = true := by decide

example : isPrometheusFormat "foo bar baz\n" = false := by decide

example : isPrometheusFormat "" = true := by decide

example : isPrometheusFormat " " = true := by decide

example : stripLabelBlock ("a{x} {y} b".data) = ("a b".data) := by decide

example :
    getMetricsDashboardHostAndPath (fun _ => true) "p1" "java" =
      { hosting := some "performanceContainer",
        path := some "/performance/monitor/dashboard/java?theme=dark&projectID=p1" } := by
  decide

example :
    getMetricsDashboardHostAndPath (fun _ => true) "p1" "nodejs" =
      { hosting := some "project", path := some "/appmetrics-dash/?theme=dark" } := by
  decide

example :
    getMetricsDashboardHostAndPath (fun _ => false) "p1" "nodejs" =
      { hosting := none, path := none } := by
  decide

example :
    getMetricsDashboardHostAndPath (fun e => e = "/swiftmetrics-dash") "p1" "swift" =
      { hosting := some "project", path := some "/swiftmetrics-dash/?theme=dark" } := by
  decide

example : getDashboardPath "performanceContainer" "/metrics" "p1" "swift" = none := by decide

example :
    runloadHandler initPerfState { projectID := "keyA", url := some "http://x" } =
      ({ loadProcess := [("keyA", some 0)], nextPid := 1, spawned := [0],
         events := [.starting "keyA", .started "keyA"] }, 202) := by
  decide

example :
    runloadHandler { loadProcess := [("keyA", some 0)], nextPid := 1, spawned := [0],
                     events := [] } { projectID := "keyA", url := some "http://y" } =
      ({ loadProcess := [("keyA", some 0)], nextPid := 1, spawned := [0], events := [] }, 409) := by
  decide

example : runloadHandler initPerfState { projectID := "p1", url := none } =
    (initPerfState, 500) := by decide

example : exitEvents "o" "e" "p" none (JsSignal.str "SIGKILL") = [.cancelled "p"] := by decide

example : exitEvents "o" "e" "p" (some 3) JsSignal.null = [.loadrunError "o" "e" "p"] := by decide

example : exitEvents "o" "e" "p" none JsSignal.null = [.loadrunError "o" "e" "p"] := by decide

example : exitEvents "o" "e" "p" (some 0) JsSignal.null = [.completed "o" "p"] := by decide

example : isMetricsEndpoint (some { statusCode := 200, body := "ab 1\n" }) = true := by decide

example : isMetricsEndpoint (some { statusCode := 503, body := "ab 1\n" }) = false := by decide

end Codewind
